import Mathlib

/-!
Verification of `litestar/_signature/model.py` (the signature-model core:
schema building, decode/validate pipeline, error aggregation and
client/server error classification) against its natural-language
specification.

The Python source is shallowly embedded below:

* `ErrorMessage`, `create_exception` embed `SignatureModel._create_exception`;
* `build_error_message` embeds `SignatureModel._build_error_message`;
* `errReSearch` embeds the `ERR_RE` regular-expression search;
* `parse_values_from_connection_kwargs` embeds the decode/validate pipeline
  (the external `convert` outcome of the primitive is passed in explicitly);
* `buildMetaKwargs` and `buildFieldType` embed the per-field body of
  `SignatureModel.create`.

External collaborators (the connection view, the `msgspec` decode primitive,
and a few helpers living outside the analysed file) are modelled from the
description in the specification of their interfaces; each such definition carries
a doc comment saying so.
-/

/-- The `source` literal of an error message:
`Literal["cookie", "body", "header", "query"]` in the source. -/
inductive Source
  | cookie
  | body
  | header
  | query
deriving DecidableEq, Repr

/-- Embeds the `ErrorMessage` TypedDict of the source: `key` and `source` are
`NotRequired` (they may be absent), modelled with `Option`; `message` is
always present. -/
structure ErrorMessage where
  key : Option String := none
  message : String
  source : Option Source := none
deriving DecidableEq, Repr

/-- The two terminal outcomes of a failed validation.
`validationException detail extra` embeds
`ValidationException(detail=..., extra=...)` (the client error);
`internalServerException` embeds `InternalServerException()` (the server
error, which carries no field-level detail). -/
inductive SigError
  | validationException (detail : String) (extra : List ErrorMessage)
  | internalServerException
deriving DecidableEq, Repr

/-- Modelled from the spec: the read-only connection view (external
collaborator): it exposes `method` when the transport has one (an HTTP
request; a websocket connection has none), the `url` target used in error
summaries, and the query-parameter names, used only for membership tests. -/
structure ASGIConnection where
  hasMethod : Bool
  method : String
  url : String
  query_params : List String
deriving DecidableEq, Repr

/-- `connection.method if hasattr(connection, "method") else ScopeType.WEBSOCKET`:
the method marker of the summary, a fixed `"websocket"` marker for non-request
connections. -/
def connMethod (conn : ASGIConnection) : String :=
  if conn.hasMethod then conn.method else "websocket"

/-- A raw (constraint or default) value.  Models the Python values carried in
constraint mappings: integers, strings, booleans and `None`. -/
inductive Val
  | vint (n : Int)
  | vstr (s : String)
  | vbool (b : Bool)
  | vnone
deriving DecidableEq, Repr

/-- Python truthiness of a `Val` (`if x:` on the value): `0`, `""`, `False`
and `None` are falsy. -/
def Val.truthy : Val → Bool
  | .vint n => n != 0
  | .vstr s => s != ""
  | .vbool b => b
  | .vnone => false

/-- Metadata attached to a type by the decode primitive (`msgspec.Meta`):
the native constraint keys (`meta_kwargs` minus `"extra"` in the source)
and the opaque `extra` bucket. -/
structure MsgspecMeta where
  native : List (String × Val)
  extra : List (String × Val)
deriving DecidableEq, Repr

/-- A type expression, as manipulated by the schema builder.
`noneType` is the Python `NoneType`, `anyType` is `typing.Any`,
`union ms` is `Union[ms...]` (`Optional[X]` is `Union[X, None]`) and
`annotated t m` is `Annotated[t, m]` with `m` a `msgspec.Meta`. -/
inductive TypeExpr
  | base (name : String)
  | noneType
  | anyType
  | union (members : List TypeExpr)
  | annotated (t : TypeExpr) (m : MsgspecMeta)
deriving Repr

/-- The kind of kwarg definition attached to a field descriptor.
`parameterKwarg ck hd mp` embeds a `ParameterKwarg` with `cookie = ck`,
`header = hd` (strings or `None` in Python) and whose
`simple_asdict(..., exclude_empty=True)` constraint mapping is `mp`;
`bodyKwarg mp` embeds the other `KwargDefinition` subclass (`BodyKwarg`);
`dependencyKwarg b` embeds `DependencyKwarg(skip_validation=b)`. -/
inductive KwargDef
  | parameterKwarg (cookie header : Option String) (mapping : List (String × Val))
  | bodyKwarg (mapping : List (String × Val))
  | dependencyKwarg (skip_validation : Bool)
deriving Repr

/-- `isinstance(kd, KwargDefinition)`: `ParameterKwarg` and `BodyKwarg` are
the `KwargDefinition` subclasses; `DependencyKwarg` is not one. -/
def KwargDef.isKwargDefinition : KwargDef → Bool
  | .parameterKwarg _ _ _ => true
  | .bodyKwarg _ => true
  | .dependencyKwarg _ => false

/-- The constraint mapping `simple_asdict(field_definition.kwarg_definition,
exclude_empty=True)` of a kwarg definition (empty for a dependency marker,
whose branch never reads it). -/
def KwargDef.constraintMapping : KwargDef → List (String × Val)
  | .parameterKwarg _ _ mp => mp
  | .bodyKwarg mp => mp
  | .dependencyKwarg _ => []

/-- A field descriptor (`litestar.typing.FieldDefinition`, an external input
consumed read-only, per the FieldDescriptor of the spec): its name, declared type
(`annot` models the `annotation` attribute), optionality/union flags,
default, and the attached kwarg definition. -/
structure FieldDefinition where
  name : String
  annot : TypeExpr
  is_optional : Bool
  is_union : Bool
  has_default : Bool
  default : Val
  kwarg_definition : Option KwargDef
deriving Repr

/-- The class-level data of a synthesized signature model:
`dependency_name_set : ClassVar[Set[str]]` and
`fields : ClassVar[dict[str, FieldDefinition]]` (membership and lookup
only are used, so both are association lists here). -/
structure SignatureModelData where
  dependency_name_set : List String
  fields : List (String × FieldDefinition)

/-- Dictionary lookup in an association list (first binding wins, as in a
Python `dict`, which holds at most one binding per key). -/
def alistLookup {α : Type} : List (String × α) → String → Option α
  | [], _ => none
  | p :: rest, k => if p.1 == k then some p.2 else alistLookup rest k

/-- The `client_errors` list-comprehension of `_create_exception`:
`[m for m in messages if ("key" in m and m["key"] not in cls.dependency_name_set)
or "key" not in m]`. -/
def clientErrorFilter (dependency_name_set : List String) (messages : List ErrorMessage) :
    List ErrorMessage :=
  messages.filter (fun m =>
    match m.key with
    | some k => !(dependency_name_set.contains k)
    | none => true)

/-- Embeds `SignatureModel._create_exception`: if `client_errors` is
non-empty (Python truthiness of the list) return a `ValidationException`
whose detail names the method and url and whose `extra` is `client_errors`;
otherwise return `InternalServerException()`. -/
def create_exception (cls : SignatureModelData) (conn : ASGIConnection)
    (messages : List ErrorMessage) : SigError :=
  let client_errors := clientErrorFilter cls.dependency_name_set messages
  match client_errors with
  | [] => .internalServerException
  | _ :: _ =>
    .validationException
      ("Validation failed for " ++ connMethod conn ++ " " ++ conn.url) client_errors

/-- The separator `" - "` on which `_build_error_message` truncates the raw
message: `exc_msg.split(" - ")[0]`. -/
def sepChars : List Char := [' ', '-', ' ']

/-- `exc_msg.split(" - ")[0]` at the character-list level: the portion of the
list before the first occurrence of `sepChars` (the whole list when the
separator does not occur). -/
def splitMsgAux : List Char → List Char
  | [] => []
  | c :: rest => if sepChars.isPrefixOf (c :: rest) then [] else c :: splitMsgAux rest

/-- `exc_msg.split(" - ")[0]`: the portion of the message before the first
`" - "` separator. -/
def msgSplitFirst (s : String) : String := String.mk (splitMsgAux s.data)

/-- Whether `sepChars` occurs as a contiguous sublist. -/
def hasSep : List Char → Bool
  | [] => false
  | c :: rest => sepChars.isPrefixOf (c :: rest) || hasSep rest

/-- The cookie/header flags lookup of `_build_error_message`:
`key in cls.fields and isinstance(cls.fields[key].kwarg_definition, ParameterKwarg)`,
returning that `cookie` and `header` attributes of that `ParameterKwarg`. -/
def fieldParamKwarg (cls : SignatureModelData) (key : String) :
    Option (Option String × Option String) :=
  match alistLookup cls.fields key with
  | some fd =>
    match fd.kwarg_definition with
    | some (.parameterKwarg ck hd _) => some (ck, hd)
    | _ => none
  | none => none

/-- Python truthiness of an optional string (`if kwarg_definition.cookie:`):
`None` and `""` are falsy. -/
def truthyStr : Option String → Bool
  | some s => s != ""
  | none => false

/-- `".".join(keys)`. -/
def joinDot : List String → String
  | [] => ""
  | [k] => k
  | k :: rest => k ++ "." ++ joinDot rest

/-- The source-attribution chain of `_build_error_message`: `query` if the
key is a query-parameter name on the connection; else, for a
`ParameterKwarg` field, `cookie` if its `cookie` attribute is truthy, else
`header` if its `header` attribute is truthy, else `query`; else no source. -/
def buildSource (cls : SignatureModelData) (conn : ASGIConnection) (key : String) :
    Option Source :=
  if conn.query_params.contains key then
    some .query
  else
    match fieldParamKwarg cls key with
    | some (ck, hd) =>
      some (if truthyStr ck then .cookie else if truthyStr hd then .header else .query)
    | none => none

/-- Embeds `SignatureModel._build_error_message`: truncate the message at the
first `" - "`; if `keys` is empty return it with no key and no source; else
set `key` to the dot-joined keys and attribute `source` by checking, in
order, the query parameters of the connection, then a cookie- or header-flagged
`ParameterKwarg` in the field metadata of the schema (else `query`); when neither
check applies, `source` stays unset. -/
def build_error_message (cls : SignatureModelData) (keys : List String)
    (exc_msg : String) (conn : ASGIConnection) : ErrorMessage :=
  let message : ErrorMessage := { message := msgSplitFirst exc_msg }
  if keys.isEmpty then message
  else
    let key := joinDot keys
    { message with key := some key, source := buildSource cls conn key }

/-- The marker the `ERR_RE` pattern looks for. -/
def errMarker : List Char := "`$.".data

/-- The backtick character closing the `ERR_RE` pattern. -/
def backtickChar : Char := Char.ofNat 96

/-- The scan performed by `ERR_RE` once the final backtick is stripped: find
the leftmost occurrence of the marker followed by a non-empty,
newline-free capture extending to the end (Python `.` never matches a
newline; on a failed capture the scan resumes one character further). -/
def errSearchFrom : List Char → Option (List Char)
  | [] => none
  | c :: rest =>
    if errMarker.isPrefixOf (c :: rest) then
      let cap := rest.drop 2
      if !cap.isEmpty && cap.all (fun ch => ch != '\n') then some cap
      else errSearchFrom rest
    else errSearchFrom rest

/-- Embeds `ERR_RE.search(str(e))` with
`ERR_RE = re.compile(r"`\$\.(.+)`$")`: the string (up to one trailing
newline, which the Python `$` anchor tolerates) must end with a backtick, and the
capture runs from the leftmost marker occurrence to that final backtick. -/
def errReSearch (s : List Char) : Option (List Char) :=
  let core := if s.getLast? = some '\n' then s.dropLast else s
  if core.getLast? = some backtickChar then errSearchFrom core.dropLast else none

/-- The outcome of the external decode primitive
(`convert(kwargs, cls, strict=False, dec_hook=dec_hook)`): success with the
decoded record (already in `to_dict` / `asdict` form), a structured
multi-error failure (`pydantic.ValidationError`, a list of location-path /
message pairs from `e.errors()`), or a single-message failure
(`msgspec.ValidationError`, carrying `str(e)`). -/
inductive ConvertResult
  | ok (record : List (String × Val))
  | pydanticError (errors : List (List String × String))
  | validationError (msg : String)

/-- Embeds `SignatureModel.parse_values_from_connection_kwargs`, with the
external convert outcome of the primitive passed in explicitly: on success the
decoded record; on a multi-error failure one `ErrorMessage` per constituent
error (keys are its stringified location path); on a single-message failure
one `ErrorMessage` whose single key is the `ERR_RE` capture, or the literal
`"n/a"` when the pattern does not match; either failure is classified by
`create_exception`. -/
def parse_values_from_connection_kwargs (cls : SignatureModelData)
    (conn : ASGIConnection) (outcome : ConvertResult) :
    Except SigError (List (String × Val)) :=
  match outcome with
  | .ok record => .ok record
  | .pydanticError errors =>
    let messages := errors.map (fun e => build_error_message cls e.1 e.2 conn)
    .error (create_exception cls conn messages)
  | .validationError emsg =>
    let keys := [match errReSearch emsg.data with
                 | some cap => String.mk cap
                 | none => "n/a"]
    let message := build_error_message cls keys emsg conn
    .error (create_exception cls conn [message])

/-- A concrete connection used by witnesses: a GET request to `/items` with
one query parameter, `limit`. -/
def connGet : ASGIConnection :=
  { hasMethod := true, method := "GET", url := "/items", query_params := ["limit"] }

/-- Concrete class-level data used by witnesses: `dependency_name_set = {"db"}`
and no field metadata. -/
def depsDb : SignatureModelData :=
  { dependency_name_set := ["db"], fields := [] }

/-- A field carrying a cookie-flagged `ParameterKwarg`, for the C5 witness. -/
def tokenField : FieldDefinition :=
  { name := "token", annot := TypeExpr.base "str", is_optional := false,
    is_union := false, has_default := false, default := Val.vnone,
    kwarg_definition := some (KwargDef.parameterKwarg (some "token-cookie") none []) }

/-- Class-level data declaring `token` as a cookie parameter, for the C5
witness. -/
def clsToken : SignatureModelData :=
  { dependency_name_set := [], fields := [("token", tokenField)] }

/-- A connection with no query parameters, for the C5 witness. -/
def connNoQuery : ASGIConnection :=
  { hasMethod := true, method := "GET", url := "/token", query_params := [] }

/-- Modelled from the spec: the attribute names of the metadata construct of the
decode primitive (`hasattr(Meta, k)` for `msgspec.Meta`): the eight
constraint attributes plus `tz`, `title`, `description`, `examples`,
`extra_json_schema` and `extra`. -/
def metaHasAttr (k : String) : Bool :=
  ["gt", "ge", "lt", "le", "multiple_of", "pattern", "min_length", "max_length",
   "tz", "title", "description", "examples", "extra_json_schema", "extra"].contains k

/-- `MSGSPEC_CONSTRAINT_FIELDS`: the native numeric/length/pattern constraint
keys of the source. -/
def MSGSPEC_CONSTRAINT_FIELDS : List String :=
  ["gt", "ge", "lt", "le", "multiple_of", "pattern", "min_length", "max_length"]

/-- Removal of a key from a dictionary (the effect of `dict.pop(k, None)` on
the mapping; a dict holds at most one binding per key). -/
def alistErase {α : Type} : List (String × α) → String → List (String × α)
  | [], _ => []
  | p :: rest, k => if p.1 == k then alistErase rest k else p :: alistErase rest k

/-- Dictionary assignment `d[k] = v`: replace the binding in place when the
key exists (Python dicts keep the original insertion position), else append
a new binding. -/
def alistInsert {α : Type} : List (String × α) → String → α → List (String × α)
  | [], k, v => [(k, v)]
  | p :: rest, k, v => if p.1 == k then (k, v) :: rest else p :: alistInsert rest k v

/-- One iteration of the `for k, v in kwarg_definition.items():` loop of
`SignatureModel.create`: a key the metadata construct recognizes, with a
non-`None` value, goes into the native bucket (`meta_kwargs[k] = v`); any
other pair goes into the opaque `extra` bucket. -/
def buildMetaStep (acc : MsgspecMeta) (p : String × Val) : MsgspecMeta :=
  if metaHasAttr p.1 && p.2 != Val.vnone then
    { acc with native := alistInsert acc.native p.1 p.2 }
  else
    { acc with extra := alistInsert acc.extra p.1 p.2 }

/-- Embeds the `meta_kwargs` construction of `SignatureModel.create`: pop
`min_items` and `max_items` from the constraint mapping and, when truthy
(`if min_items := kwarg_definition.pop("min_items", None):`), re-enter their
values as `min_length` / `max_length`; then partition the remaining pairs
into the native and `extra` buckets, building `Meta(**meta_kwargs)`. -/
def buildMetaKwargs (kw0 : List (String × Val)) : MsgspecMeta :=
  let min_items := (alistLookup kw0 "min_items").getD Val.vnone
  let kw1 := alistErase kw0 "min_items"
  let max_items := (alistLookup kw1 "max_items").getD Val.vnone
  let kw2 := alistErase kw1 "max_items"
  let native1 := if min_items.truthy then alistInsert [] "min_length" min_items else []
  let native2 := if max_items.truthy then alistInsert native1 "max_length" max_items
    else native1
  kw2.foldl buildMetaStep { native := native2, extra := [] }

/-- `meta_kwargs.keys() & MSGSPEC_CONSTRAINT_FIELDS`: whether any native
constraint key was set (the `"extra"` key of `meta_kwargs` is never in
`MSGSPEC_CONSTRAINT_FIELDS`, so only the native bucket matters). -/
def hasMsgspecConstraint (m : MsgspecMeta) : Bool :=
  m.native.any (fun p => MSGSPEC_CONSTRAINT_FIELDS.contains p.1)

/-- Whether a type expression is the Python `NoneType`. -/
def TypeExpr.isNoneType : TypeExpr → Bool
  | .noneType => true
  | _ => false

/-- Modelled from the spec: `make_non_optional_union` (`litestar.utils`, not
under src/) strips the optional wrapper: the `None` member is removed from
the union, a single surviving member collapsing to itself. -/
def make_non_optional_union : TypeExpr → TypeExpr
  | .union ms =>
    match ms.filter (fun t => !t.isNoneType) with
    | [t] => t
    | ts => .union ts
  | t => t

/-- Modelled from the spec: `unwrap_union` (`litestar.utils.typing`, not
under src/) returns the member types of a union annotation. -/
def unwrap_union : TypeExpr → List TypeExpr
  | .union ms => ms
  | t => [t]

/-- Embeds the per-field `annotation` computation of `SignatureModel.create`:
resolve the effective type (an override when the surrounding system supplies
one, else the declared type); for a `KwargDefinition`, build the constraint
metadata and attach it — re-wrapped around the non-optional inner type for an
optional field, distributed over every member for a non-optional union with a
native constraint, directly otherwise; for a skip-validation
`DependencyKwarg`, widen to `Any`. -/
def buildFieldType (type_overrides : List (String × TypeExpr)) (fd : FieldDefinition) :
    TypeExpr :=
  let annot0 := (alistLookup type_overrides fd.name).getD fd.annot
  match fd.kwarg_definition with
  | some kd =>
    if kd.isKwargDefinition then
      let meta := buildMetaKwargs kd.constraintMapping
      if fd.is_optional then
        TypeExpr.union
          [TypeExpr.annotated (make_non_optional_union annot0) meta, TypeExpr.noneType]
      else if fd.is_union && hasMsgspecConstraint meta then
        TypeExpr.union ((unwrap_union annot0).map (fun inner => TypeExpr.annotated inner meta))
      else
        TypeExpr.annotated annot0 meta
    else
      match kd with
      | KwargDef.dependencyKwarg skip => if skip then TypeExpr.anyType else annot0
      | _ => annot0
  | none => annot0

/-- `NODEFAULT` or a concrete default: the third component of a struct field
(`field_definition.default if field_definition.has_default else NODEFAULT`). -/
inductive DefaultVal
  | val (v : Val)
  | nodefault
deriving DecidableEq, Repr

/-- The synthesized signature model type (`defstruct(...)`): its diagnostic
name, its `struct_fields` triples, and the class-level namespace data. -/
structure SignatureModelType where
  name : String
  struct_fields : List (String × TypeExpr × DefaultVal)
  dependency_name_set : List String
  fields : List (String × FieldDefinition)

/-- Embeds `SignatureModel.create`. `validate_signature_dependencies` and
`create_type_overrides` (`litestar/_signature/utils.py`, not under src/) are
modelled from the spec: the former returns the pre-validated dependency-name
set (collisions are a registration-time failure outside this model), the
output of the latter is the supplied `type_overrides` mapping. -/
def signatureCreate (dependency_name_set : List String) (fn_name : String)
    (type_overrides : List (String × TypeExpr)) (params : List FieldDefinition) :
    SignatureModelType :=
  { name := fn_name ++ "_signature_model"
    struct_fields := params.map (fun fd =>
      (fd.name, buildFieldType type_overrides fd,
        if fd.has_default then DefaultVal.val fd.default else DefaultVal.nodefault))
    dependency_name_set := dependency_name_set
    fields := params.map (fun fd => (fd.name, fd)) }

/-- Modelled from the spec: acceptance of a raw value at a type by the
external decode primitive (`convert`) — the universal `Any` type accepts
every value, `None` only the none value, a base type its own kind of value,
a union any value one of its members accepts; constraint metadata does not
change which kind of value a type accepts. -/
def conforms : TypeExpr → Val → Bool
  | .anyType, _ => true
  | .noneType, v => (match v with | .vnone => true | _ => false)
  | .base n, v =>
    (match v with
     | .vint _ => n == "int"
     | .vstr _ => n == "str"
     | .vbool _ => n == "bool"
     | .vnone => false)
  | .union [], _ => false
  | .union (t :: ts), v => conforms t v || conforms (TypeExpr.union ts) v
  | .annotated t _, v => conforms t v

/-- An optional constrained field (`Optional[str]` with a pattern), for the
C3 witness. -/
def fdOptName : FieldDefinition :=
  { name := "name", annot := TypeExpr.union [TypeExpr.base "str", TypeExpr.noneType],
    is_optional := true, is_union := true, has_default := true, default := Val.vnone,
    kwarg_definition :=
      some (KwargDef.parameterKwarg none none [("pattern", Val.vstr "^[a-z]+$")]) }

/-- A non-optional union field (`Union[str, int]` with `max_length = 3`), for
the C3 witness. -/
def fdIdent : FieldDefinition :=
  { name := "ident", annot := TypeExpr.union [TypeExpr.base "str", TypeExpr.base "int"],
    is_optional := false, is_union := true, has_default := false, default := Val.vnone,
    kwarg_definition :=
      some (KwargDef.parameterKwarg none none [("max_length", Val.vint 3)]) }

/-- A skip-validation dependency field whose declared type is `int`, for the
C7 witness. -/
def fdDep : FieldDefinition :=
  { name := "db", annot := TypeExpr.base "int", is_optional := false,
    is_union := false, has_default := false, default := Val.vnone,
    kwarg_definition := some (KwargDef.dependencyKwarg true) }


theorem create_exception_eq (cls : SignatureModelData) (conn : ASGIConnection)
    (messages : List ErrorMessage) :
    create_exception cls conn messages =
      if clientErrorFilter cls.dependency_name_set messages = [] then
        .internalServerException
      else
        .validationException
          ("Validation failed for " ++ connMethod conn ++ " " ++ conn.url)
          (clientErrorFilter cls.dependency_name_set messages) := by
  unfold create_exception
  cases h : clientErrorFilter cls.dependency_name_set messages <;> simp [h]

/-- C1: for every connection and non-empty message list, `client_errors` is
the subsequence of messages whose key is absent or not in
`dependency_name_set`; if it is non-empty the classifier returns a
`ValidationException` whose structured `extra` is exactly `client_errors`
(dependency-field messages are dropped from it), else a generic
`InternalServerException`. -/
theorem c1_classifier (cls : SignatureModelData) (conn : ASGIConnection)
    (messages : List ErrorMessage) (hne : messages ≠ []) :
    (clientErrorFilter cls.dependency_name_set messages ≠ [] →
      create_exception cls conn messages =
        SigError.validationException
          ("Validation failed for " ++ connMethod conn ++ " " ++ conn.url)
          (clientErrorFilter cls.dependency_name_set messages)) ∧
    (clientErrorFilter cls.dependency_name_set messages = [] →
      create_exception cls conn messages = SigError.internalServerException) ∧
    (∀ m, m ∈ messages →
      (m ∈ clientErrorFilter cls.dependency_name_set messages ↔
        (m.key = none ∨ ∃ k, m.key = some k ∧ cls.dependency_name_set.contains k = false))) := by
  refine ⟨?_, ?_, ?_⟩
  · intro h
    rw [create_exception_eq, if_neg h]
  · intro h
    rw [create_exception_eq, if_pos h]
  · intro m hm
    unfold clientErrorFilter
    rw [List.mem_filter]
    cases hk : m.key with
    | none => simp [hm, hk]
    | some k =>
      simp only [hm, true_and, hk, Bool.not_eq_true']
      constructor
      · intro h
        exact Or.inr ⟨k, rfl, h⟩
      · rintro (h | ⟨k2, hk2, h2⟩)
        · exact absurd h (by simp)
        · cases hk2
          exact h2

/-- C1 witness: with `dependency_name_set = {"db"}`, a failure on fields
`"db"` and `"limit"` is a `ValidationException` whose detail list contains
only the `"limit"` message. -/
theorem c1_classifier_witness :
    create_exception depsDb connGet
        [{ key := some "db", message := "dep failure" },
         { key := some "limit", message := "invalid int" }] =
      SigError.validationException "Validation failed for GET /items"
        [{ key := some "limit", message := "invalid int" }] := by
  have h := c1_classifier depsDb connGet
    [{ key := some "db", message := "dep failure" },
     { key := some "limit", message := "invalid int" }] (by decide)
  exact h.1 (by decide)

/-- C2 counterexample: the claim says a failure whose messages all lack a key
is classified as an internal (server) error; in the code a keyless message is
a client error (`or "key" not in err_message` puts it into `client_errors`),
so the classifier returns a `ValidationException`, not an
`InternalServerException`. -/
theorem c2_counterexample :
    create_exception depsDb connGet [{ key := none, message := "unexpected failure" }] =
      SigError.validationException "Validation failed for GET /items"
        [{ key := none, message := "unexpected failure" }] ∧
    create_exception depsDb connGet [{ key := none, message := "unexpected failure" }] ≠
      SigError.internalServerException := by
  constructor
  · rfl
  · decide

/-- C2 (amended): for every list of messages, an error whose key is in
`dependency_name_set` is classified as internal and excluded from the client
errors; every other error — its key absent, or present but not in the set —
is a client error; in particular a non-empty failure whose messages all lack
a key yields a `ValidationException` carrying all the messages. -/
theorem c2_amended_keyless_client (cls : SignatureModelData) (conn : ASGIConnection)
    (messages : List ErrorMessage) :
    (∀ m k, m ∈ messages → m.key = some k →
      cls.dependency_name_set.contains k = true →
      m ∉ clientErrorFilter cls.dependency_name_set messages) ∧
    (∀ m, m ∈ messages →
      (m.key = none ∨ ∃ k, m.key = some k ∧ cls.dependency_name_set.contains k = false) →
      m ∈ clientErrorFilter cls.dependency_name_set messages) ∧
    (messages ≠ [] → (∀ m, m ∈ messages → m.key = none) →
      create_exception cls conn messages =
        SigError.validationException
          ("Validation failed for " ++ connMethod conn ++ " " ++ conn.url) messages) := by
  refine ⟨?_, ?_, ?_⟩
  · intro m k _ hk hdep hmem
    unfold clientErrorFilter at hmem
    rw [List.mem_filter, hk] at hmem
    simp only [hdep] at hmem
    exact absurd hmem.2 (by simp)
  · intro m hm hor
    unfold clientErrorFilter
    rw [List.mem_filter]
    refine ⟨hm, ?_⟩
    rcases hor with h | ⟨k, hk, hc⟩
    · rw [h]
    · rw [hk]
      simp only [Bool.not_eq_true']
      simpa using hc
  · intro hne hall
    have hfil : clientErrorFilter cls.dependency_name_set messages = messages := by
      unfold clientErrorFilter
      rw [List.filter_eq_self]
      intro a ha
      rw [hall a ha]
    rw [create_exception_eq, hfil, if_neg hne]

/-- C2 amended-claim witness: in a mixed failure the `db`-keyed message (a
dependency name) is excluded from the client errors while the keyless one is
kept, and a single keyless message yields a `ValidationException` carrying
that message. -/
theorem c2_amended_witness :
    ({ key := some "db", message := "dep failure" } : ErrorMessage) ∉
      clientErrorFilter depsDb.dependency_name_set
        [{ key := some "db", message := "dep failure" },
         { key := none, message := "unexpected failure" }] ∧
    ({ key := none, message := "unexpected failure" } : ErrorMessage) ∈
      clientErrorFilter depsDb.dependency_name_set
        [{ key := some "db", message := "dep failure" },
         { key := none, message := "unexpected failure" }] ∧
    create_exception depsDb connGet [{ key := none, message := "unexpected failure" }] =
      SigError.validationException "Validation failed for GET /items"
        [{ key := none, message := "unexpected failure" }] := by
  have hmix := c2_amended_keyless_client depsDb connGet
    [{ key := some "db", message := "dep failure" },
     { key := none, message := "unexpected failure" }]
  have hone := c2_amended_keyless_client depsDb connGet
    [{ key := none, message := "unexpected failure" }]
  refine ⟨hmix.1 _ "db" (List.mem_cons_self _ _) rfl rfl, ?_, ?_⟩
  · exact hmix.2.1 _ (List.mem_cons_of_mem _ (List.mem_cons_self _ _)) (Or.inl rfl)
  · exact hone.2.2 (by decide)
      (by intro m hm; cases hm with | head => rfl | tail _ h => cases h)

/-- C5: for every error message built with non-empty keys, `key` is the
dot-joined path, and `source` is determined in this exact order: a key
matching a query-parameter name gives `query` (even when the field also has
a cookie- or header-flagged constraint); otherwise a `ParameterKwarg` field
gives `cookie` if cookie-flagged, else `header` if header-flagged, else
`query`; when neither applies, `source` is omitted. -/
theorem c5_source_precedence (cls : SignatureModelData) (conn : ASGIConnection)
    (keys : List String) (exc_msg : String) (hne : keys ≠ []) :
    (build_error_message cls keys exc_msg conn).key = some (joinDot keys) ∧
    (joinDot keys ∈ conn.query_params →
      (build_error_message cls keys exc_msg conn).source = some Source.query) ∧
    (∀ ck hd, joinDot keys ∈ conn.query_params →
      fieldParamKwarg cls (joinDot keys) = some (ck, hd) →
      (build_error_message cls keys exc_msg conn).source = some Source.query) ∧
    (∀ ck hd, joinDot keys ∉ conn.query_params →
      fieldParamKwarg cls (joinDot keys) = some (ck, hd) →
      (build_error_message cls keys exc_msg conn).source =
        some (if truthyStr ck then Source.cookie
          else if truthyStr hd then Source.header else Source.query)) ∧
    (joinDot keys ∉ conn.query_params →
      fieldParamKwarg cls (joinDot keys) = none →
      (build_error_message cls keys exc_msg conn).source = none) := by
  have hke : keys.isEmpty = false := by
    cases keys with
    | nil => exact absurd rfl hne
    | cons a t => rfl
  refine ⟨?_, ?_, ?_, ?_, ?_⟩
  · simp [build_error_message, hke]
  · intro hq
    simp [build_error_message, buildSource, hke, hq]
  · intro ck hd hq _
    simp [build_error_message, buildSource, hke, hq]
  · intro ck hd hq hf
    simp [build_error_message, buildSource, hke, hq, hf]
  · intro hq hf
    simp [build_error_message, buildSource, hke, hq, hf]

/-- C5 witness: the key `token` is not a query parameter and its field is
cookie-flagged, so the source is `cookie`; and on `connGet` the key `limit`
is a query-parameter name, so the source is `query`. -/
theorem c5_source_precedence_witness :
    (build_error_message clsToken ["token"] "bad cookie" connNoQuery).key = some "token" ∧
    (build_error_message clsToken ["token"] "bad cookie" connNoQuery).source =
      some Source.cookie ∧
    (build_error_message depsDb ["limit"] "invalid int" connGet).source = some Source.query := by
  have h1 := c5_source_precedence clsToken connNoQuery ["token"] "bad cookie" (by decide)
  have h2 := c5_source_precedence depsDb connGet ["limit"] "invalid int" (by decide)
  exact ⟨h1.1, h1.2.2.2.1 (some "token-cookie") none (by decide) (by decide),
    h2.2.1 (by decide)⟩

/-- C4 counterexample: the claim says a single-message failure with no
extractable `$.<path>` suffix yields an `ErrorMessage` with no key set; in
the code `keys = ["n/a"]` in that case, so the key of the message IS set, to the
literal sentinel `"n/a"`, and it is exposed in the raised exception. -/
theorem c4_counterexample :
    parse_values_from_connection_kwargs depsDb connGet
        (ConvertResult.validationError "Expected `int`, got `str`") =
      Except.error (SigError.validationException "Validation failed for GET /items"
        [{ key := some "n/a", message := "Expected `int`, got `str`", source := none }]) ∧
    ({ key := some "n/a", message := "Expected `int`, got `str`",
       source := none } : ErrorMessage).key ≠ none := by
  constructor
  · rfl
  · decide

/-- C4 (amended): a single-message failure whose text has no extractable
`$.<path>` suffix yields an `ErrorMessage` whose key is set to the literal
sentinel `"n/a"` (the sentinel is exposed in the output); its source is
unset provided `"n/a"` is neither a query-parameter name on the connection
nor a schema field carrying a `ParameterKwarg`. -/
theorem c4_amended_sentinel_key (cls : SignatureModelData) (conn : ASGIConnection)
    (emsg : String) (hm : errReSearch emsg.data = none)
    (hq : "n/a" ∉ conn.query_params)
    (hf : fieldParamKwarg cls "n/a" = none) :
    parse_values_from_connection_kwargs cls conn (ConvertResult.validationError emsg) =
      Except.error (create_exception cls conn
        [{ key := some "n/a", message := msgSplitFirst emsg, source := none }]) := by
  have hbuild : build_error_message cls ["n/a"] emsg conn =
      { key := some "n/a", message := msgSplitFirst emsg, source := none } := by
    simp [build_error_message, buildSource, joinDot, hq, hf]
  simp only [parse_values_from_connection_kwargs, hm, hbuild]

/-- C4 amended-claim witness. -/
theorem c4_amended_witness :
    parse_values_from_connection_kwargs depsDb connGet
        (ConvertResult.validationError "Expected `int`, got `str`") =
      Except.error (create_exception depsDb connGet
        [{ key := some "n/a", message := "Expected `int`, got `str`", source := none }]) :=
  c4_amended_sentinel_key depsDb connGet "Expected `int`, got `str`"
    (by decide) (by decide) (by decide)

/-- C10: a single-message failure with no extractable path, when the literal
string `"n/a"` is not in `dependency_name_set`, always raises the client
error (`ValidationException`), never the server error, and its detail list
contains exactly one `ErrorMessage`, whose key is the literal `"n/a"`. -/
theorem c10_no_path_client_error (cls : SignatureModelData) (conn : ASGIConnection)
    (emsg : String) (hm : errReSearch emsg.data = none)
    (hdep : "n/a" ∉ cls.dependency_name_set) :
    parse_values_from_connection_kwargs cls conn (ConvertResult.validationError emsg) =
      Except.error (SigError.validationException
        ("Validation failed for " ++ connMethod conn ++ " " ++ conn.url)
        [{ key := some "n/a", message := msgSplitFirst emsg,
           source := buildSource cls conn "n/a" }]) := by
  have hbuild : build_error_message cls ["n/a"] emsg conn =
      { key := some "n/a", message := msgSplitFirst emsg,
        source := buildSource cls conn "n/a" } := by
    simp [build_error_message, joinDot]
  have hfil : clientErrorFilter cls.dependency_name_set
      [{ key := some "n/a", message := msgSplitFirst emsg,
         source := buildSource cls conn "n/a" }] =
      [{ key := some "n/a", message := msgSplitFirst emsg,
         source := buildSource cls conn "n/a" }] := by
    simp [clientErrorFilter, hdep]
  simp only [parse_values_from_connection_kwargs, hm, hbuild]
  rw [create_exception_eq, hfil]
  simp

/-- C10 witness: `"no path here"` has no extractable `$.<path>` suffix and
`"n/a"` is not a dependency name, so the raised exception is the
`ValidationException` and the single message of its detail has key `"n/a"`. -/
theorem c10_no_path_client_error_witness :
    parse_values_from_connection_kwargs depsDb connGet
        (ConvertResult.validationError "no path here") =
      Except.error (SigError.validationException "Validation failed for GET /items"
        [{ key := some "n/a", message := "no path here", source := none }]) :=
  c10_no_path_client_error depsDb connGet "no path here" (by decide) (by decide)
/-- C3: for a field carrying a constraint (`KwargDefinition`): when the field
is optional, the optional wrapper is stripped, the merged constraint
metadata is attached to the non-null inner type and the result re-wrapped as
optional; when the field is a non-optional union and a native constraint key
is present, the metadata is attached independently to every member of the
union — each member gets its own annotated copy, not only the first. -/
theorem c3_optional_union_distribution (type_overrides : List (String × TypeExpr))
    (fd : FieldDefinition) (kd : KwargDef)
    (hkd : fd.kwarg_definition = some kd) (hkw : kd.isKwargDefinition = true) :
    (fd.is_optional = true →
      buildFieldType type_overrides fd =
        TypeExpr.union
          [TypeExpr.annotated
            (make_non_optional_union ((alistLookup type_overrides fd.name).getD fd.annot))
            (buildMetaKwargs kd.constraintMapping),
           TypeExpr.noneType]) ∧
    (fd.is_optional = false → fd.is_union = true →
      hasMsgspecConstraint (buildMetaKwargs kd.constraintMapping) = true →
      buildFieldType type_overrides fd =
        TypeExpr.union
          ((unwrap_union ((alistLookup type_overrides fd.name).getD fd.annot)).map
            (fun inner => TypeExpr.annotated inner (buildMetaKwargs kd.constraintMapping))) ∧
      ∀ inner, inner ∈ unwrap_union ((alistLookup type_overrides fd.name).getD fd.annot) →
        TypeExpr.annotated inner (buildMetaKwargs kd.constraintMapping) ∈
          ((unwrap_union ((alistLookup type_overrides fd.name).getD fd.annot)).map
            (fun inner2 =>
              TypeExpr.annotated inner2 (buildMetaKwargs kd.constraintMapping)))) := by
  constructor
  · intro hopt
    simp [buildFieldType, hkd, hkw, hopt]
  · intro hopt huni hcon
    constructor
    · simp [buildFieldType, hkd, hkw, hopt, huni, hcon]
    · intro inner hmem
      exact List.mem_map_of_mem _ hmem

/-- C3 witness: a constrained `Optional[str]` field becomes
`Optional[Annotated[str, meta]]`; a constrained `Union[str, int]` field
becomes `Union[Annotated[str, meta], Annotated[int, meta]]` — the metadata
reaches both members. -/
theorem c3_optional_union_distribution_witness :
    buildFieldType [] fdOptName =
      TypeExpr.union
        [TypeExpr.annotated (TypeExpr.base "str")
          (buildMetaKwargs [("pattern", Val.vstr "^[a-z]+$")]),
         TypeExpr.noneType] ∧
    buildFieldType [] fdIdent =
      TypeExpr.union
        [TypeExpr.annotated (TypeExpr.base "str")
          (buildMetaKwargs [("max_length", Val.vint 3)]),
         TypeExpr.annotated (TypeExpr.base "int")
          (buildMetaKwargs [("max_length", Val.vint 3)])] := by
  constructor
  · exact (c3_optional_union_distribution [] fdOptName _ rfl rfl).1 rfl
  · exact ((c3_optional_union_distribution [] fdIdent _ rfl rfl).2 rfl rfl rfl).1

/-- C7: a field whose kwarg kind is a `DependencyKwarg` with skip-validation
set gets the universal accept-anything type, so at decode time it accepts
every value. -/
theorem c7_skip_validation (type_overrides : List (String × TypeExpr))
    (fd : FieldDefinition)
    (h : fd.kwarg_definition = some (KwargDef.dependencyKwarg true)) :
    buildFieldType type_overrides fd = TypeExpr.anyType ∧
    ∀ v, conforms (buildFieldType type_overrides fd) v = true := by
  have heq : buildFieldType type_overrides fd = TypeExpr.anyType := by
    simp [buildFieldType, h, KwargDef.isKwargDefinition]
  refine ⟨heq, fun v => ?_⟩
  rw [heq]
  simp [conforms]

/-- C7 witness: the skip-validation dependency field `db`, declared `int`,
is widened to the universal type and accepts the string value
`"not an int"`, which its nominal declared type rejects. -/
theorem c7_skip_validation_witness :
    buildFieldType [] fdDep = TypeExpr.anyType ∧
    conforms (buildFieldType [] fdDep) (Val.vstr "not an int") = true ∧
    conforms (TypeExpr.base "int") (Val.vstr "not an int") = false := by
  have h := c7_skip_validation [] fdDep rfl
  refine ⟨h.1, h.2 (Val.vstr "not an int"), ?_⟩
  simp [conforms]
theorem alistLookup_insert_self {α : Type} (l : List (String × α)) (k : String) (v : α) :
    alistLookup (alistInsert l k v) k = some v := by
  induction l with
  | nil => simp [alistInsert, alistLookup]
  | cons p t ih =>
    by_cases h : p.1 = k
    · simp [alistInsert, alistLookup, h]
    · simp [alistInsert, alistLookup, h, ih]

theorem alistLookup_insert_ne {α : Type} (l : List (String × α)) (k k2 : String) (v : α)
    (h : k ≠ k2) : alistLookup (alistInsert l k2 v) k = alistLookup l k := by
  have hne : (k2 == k) = false := by simp [Ne.symm h]
  induction l with
  | nil => simp [alistInsert, alistLookup, hne]
  | cons p t ih =>
    by_cases h1 : p.1 = k2
    · simp [alistInsert, alistLookup, h1, hne]
    · by_cases h2 : p.1 = k
      · simp [alistInsert, alistLookup, h1, h2, h, Ne.symm h]
      · simp [alistInsert, alistLookup, h1, h2, ih]

theorem alistLookup_erase_ne {α : Type} (l : List (String × α)) (k k2 : String)
    (h : k ≠ k2) : alistLookup (alistErase l k2) k = alistLookup l k := by
  have hne : (k2 == k) = false := by simp [Ne.symm h]
  induction l with
  | nil => rfl
  | cons p t ih =>
    by_cases h1 : p.1 = k2
    · simp [alistErase, alistLookup, h1, hne, ih]
    · by_cases h2 : p.1 = k
      · simp [alistErase, alistLookup, h1, h2, h, Ne.symm h]
      · simp [alistErase, alistLookup, h1, h2, ih]

theorem alistLookup_none_forall {α : Type} (l : List (String × α)) (k : String)
    (h : alistLookup l k = none) : ∀ p, p ∈ l → p.1 ≠ k := by
  induction l with
  | nil => intro p hp; cases hp
  | cons q t ih =>
    intro p hp
    by_cases h1 : q.1 = k
    · rw [alistLookup] at h
      simp [h1] at h
    · rw [alistLookup] at h
      simp only [h1, beq_iff_eq, if_neg h1] at h
      cases hp with
      | head => exact h1
      | tail _ hp2 => exact ih h p hp2

theorem alistErase_subset {α : Type} (l : List (String × α)) (k : String) (p : String × α)
    (h : p ∈ alistErase l k) : p ∈ l := by
  induction l with
  | nil => cases h
  | cons q t ih =>
    by_cases h1 : q.1 = k
    · rw [alistErase, if_pos (by simp [h1])] at h
      exact List.mem_cons_of_mem _ (ih h)
    · rw [alistErase, if_neg (by simp [h1])] at h
      cases h with
      | head => exact List.mem_cons_self _ _
      | tail _ h2 => exact List.mem_cons_of_mem _ (ih h2)

theorem buildMetaStep_foldl_native (l : List (String × Val)) (acc : MsgspecMeta)
    (k : String) (h : ∀ p, p ∈ l → p.1 ≠ k) :
    alistLookup (l.foldl buildMetaStep acc).native k = alistLookup acc.native k := by
  induction l generalizing acc with
  | nil => rfl
  | cons p t ih =>
    have hp : p.1 ≠ k := h p (List.mem_cons_self _ _)
    have ht : ∀ q, q ∈ t → q.1 ≠ k := fun q hq => h q (List.mem_cons_of_mem _ hq)
    rw [List.foldl_cons, ih _ ht]
    unfold buildMetaStep
    split
    · exact alistLookup_insert_ne _ _ _ _ (fun he => hp he.symm)
    · rfl

/-- C6 counterexample: the claim says the `min_items` value appears under
`min_length` for every value present in the mapping; for the present value
`0` the walrus `if min_items := kwarg_definition.pop("min_items", None):` is
falsy, so the value is popped and discarded — the resulting metadata has no
`min_length` (nor anything else). -/
theorem c6_counterexample :
    alistLookup [("min_items", Val.vint 0)] "min_items" = some (Val.vint 0) ∧
    (buildMetaKwargs [("min_items", Val.vint 0)]).native = [] ∧
    (buildMetaKwargs [("min_items", Val.vint 0)]).extra = [] := by
  refine ⟨rfl, rfl, rfl⟩

/-- C6 (amended): whenever `min_items` is present with a truthy (non-zero,
non-`None`) value and the mapping itself carries no `min_length` entry, its
value appears in the constraint metadata under `min_length`; likewise
`max_items` / `max_length`.  A falsy value (such as `0`) is popped from the
mapping and contributes no metadata at all. -/
theorem c6_amended_truthy_rename (kw : List (String × Val)) (mi mx : Val) :
    (alistLookup kw "min_items" = some mi → mi.truthy = true →
      alistLookup kw "min_length" = none →
      alistLookup (buildMetaKwargs kw).native "min_length" = some mi) ∧
    (alistLookup kw "max_items" = some mx → mx.truthy = true →
      alistLookup kw "max_length" = none →
      alistLookup (buildMetaKwargs kw).native "max_length" = some mx) := by
  constructor
  · intro hmi hti hnl
    have hfold : ∀ p, p ∈ alistErase (alistErase kw "min_items") "max_items" →
        p.1 ≠ "min_length" := by
      intro p hp
      exact alistLookup_none_forall kw "min_length" hnl p
        (alistErase_subset _ _ _ (alistErase_subset _ _ _ hp))
    rw [buildMetaKwargs]
    rw [buildMetaStep_foldl_native _ _ _ hfold]
    rw [hmi]
    simp only [Option.getD_some, hti, if_true]
    by_cases hmt : ((alistLookup (alistErase kw "min_items") "max_items").getD
        Val.vnone).truthy = true
    · simp only [hmt, if_true]
      rw [alistLookup_insert_ne _ _ _ _ (by decide)]
      exact alistLookup_insert_self _ _ _
    · simp only [hmt, if_false]
      exact alistLookup_insert_self _ _ _
  · intro hmx htx hxl
    have hfold : ∀ p, p ∈ alistErase (alistErase kw "min_items") "max_items" →
        p.1 ≠ "max_length" := by
      intro p hp
      exact alistLookup_none_forall kw "max_length" hxl p
        (alistErase_subset _ _ _ (alistErase_subset _ _ _ hp))
    have hmx1 : alistLookup (alistErase kw "min_items") "max_items" = some mx := by
      rw [alistLookup_erase_ne _ _ _ (by decide)]
      exact hmx
    rw [buildMetaKwargs]
    rw [buildMetaStep_foldl_native _ _ _ hfold]
    rw [hmx1]
    simp only [Option.getD_some, htx, if_true]
    exact alistLookup_insert_self _ _ _

/-- C6 amended-claim witness: a mapping with truthy `min_items = 1` and
`max_items = 5` produces metadata with `min_length = 1` and
`max_length = 5`. -/
theorem c6_amended_witness :
    alistLookup (buildMetaKwargs [("min_items", Val.vint 1), ("max_items", Val.vint 5)]).native
      "min_length" = some (Val.vint 1) ∧
    alistLookup (buildMetaKwargs [("min_items", Val.vint 1), ("max_items", Val.vint 5)]).native
      "max_length" = some (Val.vint 5) := by
  have h := c6_amended_truthy_rename [("min_items", Val.vint 1), ("max_items", Val.vint 5)]
    (Val.vint 1) (Val.vint 5)
  exact ⟨h.1 rfl rfl rfl, h.2 rfl rfl rfl⟩
theorem strDataAppend (a b : String) : (a ++ b).data = a.data ++ b.data := by
  cases a
  cases b
  rfl

theorem strMkData (s : String) : String.mk s.data = s := by
  cases s
  rfl

theorem splitMsgAux_of_not_hasSep (s : List Char) (h : hasSep s = false) :
    splitMsgAux s = s := by
  induction s with
  | nil => rfl
  | cons c rest ih =>
    rw [hasSep, Bool.or_eq_false_iff] at h
    rw [splitMsgAux, if_neg (by simp [h.1]), ih h.2]

theorem boundary_sep_miss (c : Char) (pre2 post : List Char)
    (h1 : sepChars.isPrefixOf (c :: (pre2 ++ [' ', '-'])) = false) :
    sepChars.isPrefixOf (c :: (pre2 ++ (sepChars ++ post))) = false := by
  rcases pre2 with _ | ⟨b, _ | ⟨d, r⟩⟩
  · simp [sepChars, List.isPrefixOf]
  · simp [sepChars, List.isPrefixOf] at h1 ⊢
    exact h1
  · simp [sepChars, List.isPrefixOf] at h1 ⊢
    exact h1

theorem splitMsgAux_boundary (pre post : List Char)
    (h : hasSep (pre ++ [' ', '-']) = false) :
    splitMsgAux (pre ++ (sepChars ++ post)) = pre := by
  induction pre with
  | nil =>
    rw [List.nil_append]
    show splitMsgAux (' ' :: '-' :: ' ' :: post) = []
    rw [splitMsgAux, if_pos (by simp [sepChars, List.isPrefixOf])]
  | cons c pre2 ih =>
    rw [List.cons_append, hasSep, Bool.or_eq_false_iff] at h
    have hnp := boundary_sep_miss c pre2 post h.1
    rw [List.cons_append, splitMsgAux, if_neg (by simp [hnp]), ih h.2]

theorem build_error_message_message (cls : SignatureModelData) (keys : List String)
    (exc_msg : String) (conn : ASGIConnection) :
    (build_error_message cls keys exc_msg conn).message = msgSplitFirst exc_msg := by
  simp only [build_error_message]
  split
  · rfl
  · rfl

/-- C8: the `message` field of the error message is the portion of the raw
message before the first `" - "` separator: when the raw message splits as
`pre ++ " - " ++ post` with no earlier separator occurrence (none inside
`pre` and none spanning the boundary, i.e. `pre ++ " -"` is separator-free),
the field is `pre`; when the raw message contains no separator at all, the
field is the entire raw message. -/
theorem c8_message_truncation (cls : SignatureModelData) (conn : ASGIConnection)
    (keys : List String) (pre post s2 : String)
    (h1 : hasSep (pre.data ++ [' ', '-']) = false)
    (h2 : hasSep s2.data = false) :
    (build_error_message cls keys (pre ++ " - " ++ post) conn).message = pre ∧
    (build_error_message cls keys s2 conn).message = s2 := by
  constructor
  · rw [build_error_message_message]
    have hd : (pre ++ " - " ++ post).data = pre.data ++ (sepChars ++ post.data) := by
      rw [strDataAppend, strDataAppend, List.append_assoc]
      rfl
    rw [msgSplitFirst, hd, splitMsgAux_boundary _ _ h1, strMkData]
  · rw [build_error_message_message, msgSplitFirst, splitMsgAux_of_not_hasSep _ h2, strMkData]

/-- C8 witness: `"invalid value - additional context"` is truncated to
`"invalid value"`, and a separator-free message is kept whole. -/
theorem c8_message_truncation_witness :
    (build_error_message depsDb []
        ("invalid value" ++ " - " ++ "additional context") connGet).message =
      "invalid value" ∧
    (build_error_message depsDb [] "plain message" connGet).message = "plain message" :=
  c8_message_truncation depsDb connGet [] "invalid value" "additional context"
    "plain message" (by decide) (by decide)
